import Mathlib

/-!
Verification of the recipe-book backend's quantity engine and controller
logic.  The quantity engine (`util/quantify.js`) is not part of the staged
sources, so its data model and operations are modelled from the spec; the
controller functions (`app/controllers/recipe.js`, `app/controllers/user.js`)
are embedded from the source.  All numeric values are rationals.
-/

/-- Modelled from the spec: the measurement categories of the unit registry
(`util/quantify.js` is missing from the staged sources). -/
inductive MeasurementCategory where
  | volume
  | mass
  | count
deriving DecidableEq

/-- Modelled from the spec: a registered unit with its canonical token,
accepted aliases, category, factor to the category's base unit and display
forms. -/
structure UnitDefinition where
  token : String
  aliases : List String
  category : MeasurementCategory
  factorToBase : ℚ
  singular : String
  plural : String
deriving DecidableEq

/-- Lowercase a single ASCII letter, leaving other characters unchanged. -/
def lowerChar (c : Char) : Char :=
  if 65 ≤ c.toNat ∧ c.toNat ≤ 90 then Char.ofNat (c.toNat + 32) else c

/-- Uppercase a single ASCII letter, leaving other characters unchanged. -/
def upperChar (c : Char) : Char :=
  if 97 ≤ c.toNat ∧ c.toNat ≤ 122 then Char.ofNat (c.toNat - 32) else c

/-- Whitespace characters trimmed from a unit token. -/
def isSpaceChar (c : Char) : Bool :=
  c = ' ' || c = '\t' || c = '\n' || c = '\r'

/-- Modelled from the spec: canonicalize a unit token by trimming surrounding
whitespace and lowercasing (registry lookup is case-insensitive). -/
def canonTok (s : String) : String :=
  ⟨(((s.data.dropWhile isSpaceChar).reverse.dropWhile isSpaceChar).reverse).map lowerChar⟩

/-- Uppercase every letter of a string (used to state case-insensitivity). -/
def upperStr (s : String) : String :=
  ⟨s.data.map upperChar⟩

/-- Whether a token ends in a lowercase "s" (pluralization candidate). -/
def endsInLowerS (s : String) : Bool :=
  s.data.getLast? = some 's'

/-- The token with its final character removed (singularization). -/
def dropLastChar (s : String) : String :=
  ⟨s.data.dropLast⟩

/-- Modelled from the spec: the process-wide, read-only unit registry.  The
spec leaves the concrete factor table as configuration data; the factors
below use millilitres as the volume base unit and grams as the mass base
unit, with the US customary conversion factors. -/
def mLDef : UnitDefinition :=
  ⟨"mL", ["ml", "milliliter", "millilitre"], .volume, 1, "milliliter", "milliliters"⟩

/-- Modelled from the spec: the litre unit (1 L = 1000 mL). -/
def LDef : UnitDefinition :=
  ⟨"L", ["l", "liter", "litre"], .volume, 1000, "liter", "liters"⟩

/-- Modelled from the spec: the teaspoon unit (1 tsp = 4.92892159375 mL). -/
def tspDef : UnitDefinition :=
  ⟨"tsp", ["tsp", "teaspoon", "t"], .volume, 4.92892159375, "teaspoon", "teaspoons"⟩

/-- Modelled from the spec: the tablespoon unit (1 tbsp = 14.78676478125 mL). -/
def tbspDef : UnitDefinition :=
  ⟨"tbsp", ["tbsp", "tbs", "tablespoon"], .volume, 14.78676478125, "tablespoon", "tablespoons"⟩

/-- Modelled from the spec: the cup unit (1 cup = 236.5882365 mL). -/
def cupDef : UnitDefinition :=
  ⟨"cup", ["cup", "c"], .volume, 236.5882365, "cup", "cups"⟩

/-- Modelled from the spec: the gram unit; its display form has no distinct
plural. -/
def gDef : UnitDefinition :=
  ⟨"g", ["g", "gram"], .mass, 1, "g", "g"⟩

/-- Modelled from the spec: the kilogram unit (1 kg = 1000 g). -/
def kgDef : UnitDefinition :=
  ⟨"kg", ["kg", "kilogram"], .mass, 1000, "kilogram", "kilograms"⟩

/-- Modelled from the spec: the ounce unit (1 oz = 28.349523125 g). -/
def ozDef : UnitDefinition :=
  ⟨"oz", ["oz", "ounce"], .mass, 28.349523125, "ounce", "ounces"⟩

/-- Modelled from the spec: the pound unit (1 lb = 453.59237 g). -/
def lbDef : UnitDefinition :=
  ⟨"lb", ["lb", "pound"], .mass, 453.59237, "pound", "pounds"⟩

/-- Modelled from the spec: the whole-item count unit. -/
def countDef : UnitDefinition :=
  ⟨"count", ["count", "whole", "item"], .count, 1, "item", "items"⟩

/-- Modelled from the spec: the flat registry table, built once and never
mutated. -/
def registry : List UnitDefinition :=
  [mLDef, LDef, tspDef, tbspDef, cupDef, gDef, kgDef, ozDef, lbDef, countDef]

/-- Every alias accepted by the registry (its flat alias table). -/
def registryAliases : List String :=
  registry.foldr (fun u acc => u.aliases ++ acc) []

/-- Exact alias lookup over the registry (the token is already canonical). -/
def lookupAlias (tok : String) : Option UnitDefinition :=
  registry.find? (fun u => u.aliases.contains tok)

/-- Modelled from the spec: lookup of a canonical token, stripping a trailing
"s" when the exact form is not registered but the singular form is; an
unresolved token yields none (NotFound), never a fuzzy match. -/
def resolveCanon (c : String) : Option UnitDefinition :=
  match lookupAlias c with
  | some u => some u
  | none => if endsInLowerS c then lookupAlias (dropLastChar c) else none

/-- Modelled from the spec: `resolve(token)`, the registry's public lookup:
case-insensitive, whitespace-trimming, pluralization-tolerant. -/
def resolve (tok : String) : Option UnitDefinition :=
  resolveCanon (canonTok tok)

/-- Modelled from the spec: a raw quantity value from the frontend, either
absent, a number, or a decimal string. -/
inductive RawVal where
  | absent
  | num (q : ℚ)
  | str (s : String)
deriving DecidableEq

/-- Modelled from the spec: the parser's error taxonomy. -/
inductive ParseError where
  | incompleteQuantity
  | invalidNumber
  | negativeQuantity
  | unknownUnit (token : String)
deriving DecidableEq

/-- Digits to the natural number they denote (most significant first). -/
def digitsVal (ds : List Char) : ℕ :=
  ds.foldl (fun a c => 10 * a + (c.toNat - 48)) 0

/-- Modelled from the spec: parse an unsigned decimal number (digits with at
most a single decimal point, at least one digit in all). -/
def parseUnsigned (cs : List Char) : Option ℚ :=
  match cs.dropWhile Char.isDigit with
  | [] => if (cs.takeWhile Char.isDigit).isEmpty then none else some (digitsVal cs)
  | '.' :: frac =>
    if frac.all Char.isDigit && !((cs.takeWhile Char.isDigit).isEmpty && frac.isEmpty) then
      some ((digitsVal (cs.takeWhile Char.isDigit) : ℚ) + (digitsVal frac : ℚ) / 10 ^ frac.length)
    else none
  | _ => none

/-- Modelled from the spec: string inputs are parsed as decimal numbers,
accepting a leading sign and a single decimal point. -/
def parseDecimal (s : String) : Option ℚ :=
  match s.data with
  | '-' :: cs => (parseUnsigned cs).map (fun q => -q)
  | '+' :: cs => parseUnsigned cs
  | cs => parseUnsigned cs

/-- Modelled from the spec: numeric coercion of a present raw value. -/
def coerceValue : RawVal → Option ℚ
  | .absent => none
  | .num q => some q
  | .str s => parseDecimal s

/-- Modelled from the spec: a parsed quantity, a non-negative value paired
with its resolved unit. -/
structure Quantity where
  value : ℚ
  unitDef : UnitDefinition
deriving DecidableEq

/-- Modelled from the spec: the parser's result, either a quantity, the
distinguished no-quantity state, or an error. -/
inductive ParseResult where
  | absent
  | err (e : ParseError)
  | ok (q : Quantity)
deriving DecidableEq

/-- Modelled from the spec: `parse(rawValue, rawUnit)`.  Both absent gives
`Absent`; one present without the other is `IncompleteQuantity`; string
values failing numeric coercion are `InvalidNumber`; negative values are
`NegativeQuantity`; an unresolved unit token is `UnknownUnit`. -/
def parse (rawValue : RawVal) (rawUnit : Option String) : ParseResult :=
  match rawValue, rawUnit with
  | .absent, none => .absent
  | .absent, some _ => .err .incompleteQuantity
  | _, none => .err .incompleteQuantity
  | v, some tok =>
    match coerceValue v with
    | none => .err .invalidNumber
    | some x =>
      if x < 0 then .err .negativeQuantity
      else
        match resolve tok with
        | none => .err (.unknownUnit tok)
        | some u => .ok ⟨x, u⟩

/-- Round half to even: the nearest integer, breaking ties toward the even
one. -/
def rhe (x : ℚ) : ℤ :=
  if x - ⌊x⌋ < 1 / 2 then ⌊x⌋
  else if 1 / 2 < x - ⌊x⌋ then ⌊x⌋ + 1
  else if 2 ∣ ⌊x⌋ then ⌊x⌋ else ⌊x⌋ + 1

/-- Modelled from the spec: round to `n` significant decimal digits using
round half to even. -/
def roundSig (n : ℕ) (x : ℚ) : ℚ :=
  if x = 0 then 0
  else
    (rhe (x * (10 : ℚ) ^ ((n : ℤ) - 1 - Int.log 10 |x|)) : ℚ) /
      (10 : ℚ) ^ ((n : ℤ) - 1 - Int.log 10 |x|)

/-- Modelled from the spec: the normalizer `normalize(q)` computes
`value * factorToBase` within the unit's category and rounds to 4
significant digits, half to even.  It is a total function on `Quantity`
(named `normalizeQty` here because Mathlib already declares `normalize`). -/
def normalizeQty (q : Quantity) : ℚ :=
  roundSig 4 (q.value * q.unitDef.factorToBase)

/-- Modelled from the spec: match the fractional part against the supported
denominators in priority order, taking the nearest numerator when it lands
within 1/64 and names a proper fraction, reduced to lowest terms. -/
def fracSearch (f : ℚ) : List ℕ → Option (ℕ × ℕ)
  | [] => none
  | d :: ds =>
    let n : ℤ := rhe (f * d)
    if 1 ≤ n ∧ n ≤ (d : ℤ) - 1 ∧ |f - (n : ℚ) / (d : ℚ)| ≤ 1 / 64 then
      some (n.toNat / Nat.gcd n.toNat d, d / Nat.gcd n.toNat d)
    else fracSearch f ds

/-- Modelled from the spec: the decimal fallback, the value rounded to two
decimal places. -/
def decimalFallback (value : ℚ) : String :=
  toString (rhe (value * 100) / 100) ++ "." ++
    (if (rhe (value * 100) % 100).natAbs < 10 then "0" else "") ++
    toString ((rhe (value * 100) % 100).natAbs)

/-- Modelled from the spec: render a numeric value as a whole number, a
vulgar fraction over a supported denominator (whole part omitted when
zero), or the two-place decimal fallback. -/
def renderNumber (value : ℚ) : String :=
  if value - ⌊value⌋ < 1 / 1000000 then toString ⌊value⌋
  else
    match fracSearch (value - ⌊value⌋) [2, 3, 4, 8] with
    | some p =>
      (if ⌊value⌋ = 0 then "" else toString ⌊value⌋ ++ " ") ++
        toString p.1 ++ "/" ++ toString p.2
    | none => decimalFallback value

/-- Modelled from the spec: `render(value, unit)` pairs the rendered number
with the unit's display form, pluralized for any value other than exactly
one. -/
def render (value : ℚ) (u : UnitDefinition) : String :=
  renderNumber value ++ " " ++ (if value = 1 then u.singular else u.plural)

/-- Modelled from the spec: the immutable display-plus-numeric triple the
façade returns (the call sites read `readable`, `normalized`, `units`). -/
structure Rendering where
  readable : String
  normalized : ℚ
  units : String
deriving DecidableEq

/-- Modelled from the spec: the façade's result. -/
inductive BuildResult where
  | absent
  | err (e : ParseError)
  | ok (r : Rendering)
deriving DecidableEq

/-- Modelled from the spec: `Quantifiable.build` orchestrates parse,
normalize and render; the readable text uses the original value and unit
while the numeric field is the normalized base-unit value; `Absent` and all
errors propagate unchanged. -/
def build (rawValue : RawVal) (rawUnit : Option String) : BuildResult :=
  match parse rawValue rawUnit with
  | .absent => .absent
  | .err e => .err e
  | .ok q => .ok ⟨render q.value q.unitDef, normalizeQty q, q.unitDef.token⟩

/-- JavaScript truthiness of a raw quantity value at the `mapQuantifiable`
gate in `recipe.js` (`input.quantity` is falsy when absent, zero, or the
empty string). -/
def truthyVal : RawVal → Bool
  | .absent => false
  | .num q => if q = 0 then false else true
  | .str s => if s = "" then false else true

/-- JavaScript truthiness of the raw unit at the `mapQuantifiable` gate
(falsy when absent or the empty string). -/
def truthyUnit : Option String → Bool
  | none => false
  | some s => if s = "" then false else true

/-- A frontend quantifiable object as `recipe.js` receives it. -/
structure FrontendQuantifiable where
  quantity : RawVal
  unit : Option String
deriving DecidableEq

/-- The backend quantifiable record `mapQuantifiable` stores. -/
structure BackendQuantifiable where
  readable : String
  numeric : ℚ
  unit : String
deriving DecidableEq

/-- `mapQuantifiable` from `app/controllers/recipe.js`: it returns a record
only when `input`, `input.quantity` and `input.unit` are all truthy, and
otherwise returns `undefined` (here `none`).  The engine call on the truthy
path is `Quantifiable.build`; its behavior on an error result is not visible
in the staged sources (`util/quantify.js` is missing) and is modelled as
`none`. -/
def mapQuantifiable (input : Option FrontendQuantifiable) : Option BackendQuantifiable :=
  match input with
  | none => none
  | some i =>
    if truthyVal i.quantity && truthyUnit i.unit then
      match build i.quantity i.unit with
      | .ok r => some ⟨r.readable, r.normalized, r.units⟩
      | _ => none
    else none

/-- A stored user document as the user controller sees it: public fields
plus the stored password and the Mongoose `__v` versioning field. -/
structure UserDoc where
  username : String
  email : String
  password : Option String
  versionKey : Option Nat
deriving DecidableEq

/-- The controller's scrubbing assignment
`user.password = user.__v = undefined` from `user.js`. -/
def scrubUser (u : UserDoc) : UserDoc :=
  { u with password := none, versionKey := none }

/-- `getAllUsers` from `app/controllers/user.js`: fetches all users, blanks
the password and `__v` of every returned document, and sends the status and
scrubbed list. -/
def getAllUsers (status : ℕ) (fetched : List UserDoc) : ℕ × List UserDoc :=
  (status, fetched.map scrubUser)

/-- `getUserById` from `app/controllers/user.js`: fetches one user, blanks
its password and `__v`, and sends the status and scrubbed document. -/
def getUserById (status : ℕ) (fetched : UserDoc) : ℕ × UserDoc :=
  (status, scrubUser fetched)

/-- One character of the ObjectID character class `[a-f\d]` with the
case-insensitive flag. -/
def isHexDigitChar (c : Char) : Bool :=
  c.isDigit || ('a' ≤ c && c ≤ 'f') || ('A' ≤ c && c ≤ 'F')

/-- `objectIdIsValid` from `app/controllers/recipe.js`: the ID matches
`/^[a-f\d]{24}$/i`. -/
def objectIdIsValid (id : String) : Bool :=
  (id.data.length == 24) && id.data.all isHexDigitChar

/-- The fields of a recipe document that `change` copies from the request
body (abridged to representative fields). -/
structure RecipeDoc where
  title : String
  instructions : List String
deriving DecidableEq

/-- A `quickResponse(status, message)` value from `util/quick-response`. -/
structure QuickResponse where
  status : ℕ
  message : String
deriving DecidableEq

/-- The not-found message `change` builds for an invalid or missing ID. -/
def changeNotFoundMsg (id : String) : String :=
  "The recipe with ID of \"" ++ id ++ "\" could not be retrieved."

/-- The failure message of `change`'s catch branch. -/
def changeFailMsg (id : String) : String :=
  "The recipe with ID of \"" ++ id ++ "\" could not be updated."

/-- The success message of `change`. -/
def changeOkMsg (id : String) : String :=
  "The recipe with ID of \"" ++ id ++ "\" was successfully updated."

/-- The not-found message of `discard` (the stray period after the quoted
ID is present in the source). -/
def discardNotFoundMsg (id : String) : String :=
  "The recipe with ID of \"" ++ id ++ "\". could not be retrieved."

/-- The success message of `discard`. -/
def discardOkMsg (id : String) : String :=
  "The recipe with ID of \"" ++ id ++ "\" was successfully deleted."

/-- `change` from `app/controllers/recipe.js` over an explicit store: an ID
failing `objectIdIsValid` returns 404 before any database access; a valid
but unknown ID ends in the catch branch (400) after `fetchById`'s 404 body
reaches `save`; otherwise the stored document's fields are replaced and the
store is written. -/
def change (id : String) (json : RecipeDoc) (store : List (String × RecipeDoc)) :
    QuickResponse × List (String × RecipeDoc) :=
  if objectIdIsValid id then
    match store.lookup id with
    | none => (⟨400, changeFailMsg id⟩, store)
    | some _ =>
      (⟨200, changeOkMsg id⟩, store.map (fun p => if p.1 = id then (id, json) else p))
  else (⟨404, changeNotFoundMsg id⟩, store)

/-- `discard` from `app/controllers/recipe.js` over an explicit store: an ID
failing `objectIdIsValid` returns 404 before `findByIdAndDelete`; an unknown
ID returns 404; otherwise the document is deleted (named `discardRecipe`
here because the core library already exports `discard`). -/
def discardRecipe (id : String) (store : List (String × RecipeDoc)) :
    QuickResponse × List (String × RecipeDoc) :=
  if objectIdIsValid id then
    match store.lookup id with
    | none => (⟨404, discardNotFoundMsg id⟩, store)
    | some _ => (⟨200, discardOkMsg id⟩, store.filter (fun p => p.1 != id))
  else (⟨404, discardNotFoundMsg id⟩, store)

/-- The floor stays within half a unit below `rhe`. -/
theorem rhe_sub_abs_le (x : ℚ) : |(rhe x : ℚ) - x| ≤ 1 / 2 := by
  have h0 : (⌊x⌋ : ℚ) ≤ x := Int.floor_le x
  have h1 : x < (⌊x⌋ : ℚ) + 1 := Int.lt_floor_add_one x
  unfold rhe
  split_ifs with ha hb hc
  · rw [abs_le]; constructor <;> linarith
  · rw [abs_le]; push_cast; constructor <;> linarith
  · rw [abs_le]; constructor <;> linarith
  · rw [abs_le]; push_cast; constructor <;> linarith

/-- At an exact half-way tie, `rhe` lands on an even integer. -/
theorem rhe_tie_even (x : ℚ) (h : |(rhe x : ℚ) - x| = 1 / 2) : 2 ∣ rhe x := by
  have h0 : (⌊x⌋ : ℚ) ≤ x := Int.floor_le x
  have h1 : x < (⌊x⌋ : ℚ) + 1 := Int.lt_floor_add_one x
  unfold rhe at h ⊢
  split_ifs at h ⊢ with ha hb hc
  · exfalso
    rw [abs_eq (by norm_num : (0:ℚ) ≤ 1/2)] at h
    rcases h with h | h <;> linarith
  · exfalso
    rw [abs_eq (by norm_num : (0:ℚ) ≤ 1/2)] at h
    push_cast at h
    rcases h with h | h <;> linarith
  · exact hc
  · have hr : x - ⌊x⌋ = 1 / 2 := by linarith
    rcases Int.even_or_odd ⌊x⌋ with he | ho
    · exact absurd he.two_dvd hc
    · rcases ho with ⟨k, hk⟩
      exact ⟨k + 1, by omega⟩

/-- Evaluation of `rhe` when the value sits in the lower half step. -/
theorem rhe_eq_low (x : ℚ) (n : ℤ) (h1 : (n : ℚ) ≤ x) (h2 : x < (n : ℚ) + 1 / 2) :
    rhe x = n := by
  have hf : ⌊x⌋ = n := Int.floor_eq_iff.mpr ⟨h1, by linarith⟩
  unfold rhe
  rw [hf, if_pos (by linarith)]

/-- Evaluation of `rhe` when the value sits in the upper half step or is
exact. -/
theorem rhe_eq_high (x : ℚ) (n : ℤ) (h1 : (n : ℚ) - 1 / 2 < x) (h2 : x ≤ n) :
    rhe x = n := by
  rcases eq_or_lt_of_le h2 with he | hlt
  · exact rhe_eq_low x n (le_of_eq he.symm) (by rw [he]; linarith)
  · have hf : ⌊x⌋ = n - 1 := by
      apply Int.floor_eq_iff.mpr
      constructor
      · push_cast; linarith
      · push_cast; linarith
    unfold rhe
    rw [hf]
    rw [if_neg (by push_cast; linarith), if_pos (by push_cast; linarith)]
    omega

/-- Evaluation of `rhe` at an exact tie over an even integer. -/
theorem rhe_eq_tie_even (n : ℤ) (h : 2 ∣ n) : rhe ((n : ℚ) + 1 / 2) = n := by
  have hf : ⌊(n : ℚ) + 1 / 2⌋ = n := by
    apply Int.floor_eq_iff.mpr
    constructor
    · linarith
    · linarith
  unfold rhe
  rw [hf]
  rw [if_neg (by norm_num), if_neg (by norm_num), if_pos h]

/-- Characterization of 4-significant-digit rounding on a positive value:
the result is an integer mantissa of at most `10 ^ 4` scaled by the power
of ten three below the leading digit, it sits within half an ulp of the
input, and an exact tie has an even mantissa. -/
theorem roundSig4_pos_spec (x : ℚ) (hx : 0 < x) :
    ∃ m : ℤ, 0 < m ∧ m ≤ 10 ^ 4 ∧
      roundSig 4 x = (m : ℚ) * (10 : ℚ) ^ (Int.log 10 x - 3) ∧
      |roundSig 4 x - x| ≤ (10 : ℚ) ^ (Int.log 10 x - 3) / 2 ∧
      (|roundSig 4 x - x| = (10 : ℚ) ^ (Int.log 10 x - 3) / 2 → 2 ∣ m) := by
  have hten : (10 : ℚ) ≠ 0 := by norm_num
  set e : ℤ := Int.log 10 x with he
  set s : ℤ := ((4 : ℕ) : ℤ) - 1 - e with hs
  have hp : (0 : ℚ) < (10 : ℚ) ^ s := zpow_pos (by norm_num) s
  have hq : (0 : ℚ) < (10 : ℚ) ^ (e - 3) := zpow_pos (by norm_num) (e - 3)
  have hinv : (10 : ℚ) ^ s * (10 : ℚ) ^ (e - 3) = 1 := by
    rw [← zpow_add₀ hten]
    have : s + (e - 3) = 0 := by omega
    rw [this, zpow_zero]
  set y : ℚ := x * (10 : ℚ) ^ s with hy
  set m : ℤ := rhe y with hm
  have hlow : (10 : ℚ) ^ e ≤ x := by
    have := Int.zpow_log_le_self (b := 10) (by norm_num) hx
    push_cast at this
    exact_mod_cast this
  have hhigh : x < (10 : ℚ) ^ (e + 1) := by
    have := Int.lt_zpow_succ_log_self (b := 10) (by norm_num) x
    push_cast at this
    exact_mod_cast this
  have hylow : (1000 : ℚ) ≤ y := by
    have h1 : (10 : ℚ) ^ e * (10 : ℚ) ^ s ≤ y := by
      exact mul_le_mul_of_nonneg_right hlow (le_of_lt hp)
    have h2 : (10 : ℚ) ^ e * (10 : ℚ) ^ s = (10 : ℚ) ^ (3 : ℤ) := by
      rw [← zpow_add₀ hten]
      congr 1
      omega
    rw [h2] at h1
    norm_num at h1
    linarith
  have hyhigh : y < (10000 : ℚ) := by
    have h1 : y < (10 : ℚ) ^ (e + 1) * (10 : ℚ) ^ s := by
      exact mul_lt_mul_of_pos_right hhigh hp
    have h2 : (10 : ℚ) ^ (e + 1) * (10 : ℚ) ^ s = (10 : ℚ) ^ (4 : ℤ) := by
      rw [← zpow_add₀ hten]
      congr 1
      omega
    rw [h2] at h1
    norm_num at h1
    linarith
  have hmy : |(m : ℚ) - y| ≤ 1 / 2 := rhe_sub_abs_le y
  have hmlow : (0 : ℚ) < (m : ℚ) := by
    have := abs_le.mp hmy
    linarith [this.1]
  have hmhigh : (m : ℚ) ≤ 10 ^ 4 := by
    have := abs_le.mp hmy
    have h1 : (m : ℚ) < 10000 + 1 / 2 := by linarith [this.2]
    have h2 : m < 10001 := by
      have : (m : ℚ) < 10001 := by linarith
      exact_mod_cast this
    have : (m : ℚ) ≤ 10000 := by
      have : m ≤ 10000 := by omega
      exact_mod_cast this
    linarith
  have hxpos : x ≠ 0 := ne_of_gt hx
  have hround : roundSig 4 x = (m : ℚ) / (10 : ℚ) ^ s := by
    unfold roundSig
    rw [if_neg hxpos, abs_of_pos hx, ← he, hm, hy, hs]
  have hdiv : (m : ℚ) / (10 : ℚ) ^ s = (m : ℚ) * (10 : ℚ) ^ (e - 3) := by
    rw [div_eq_mul_inv]
    congr 1
    rw [← zpow_neg]
    congr 1
    omega
  have hxy : x = y * (10 : ℚ) ^ (e - 3) := by
    rw [hy, mul_assoc, hinv, mul_one]
  have herr : roundSig 4 x - x = ((m : ℚ) - y) * (10 : ℚ) ^ (e - 3) := by
    rw [hround, hdiv, hxy]
    ring
  have herrabs : |roundSig 4 x - x| = |(m : ℚ) - y| * (10 : ℚ) ^ (e - 3) := by
    rw [herr, abs_mul, abs_of_pos hq]
  refine ⟨m, ?_, ?_, ?_, ?_, ?_⟩
  · exact_mod_cast hmlow
  · exact_mod_cast hmhigh
  · rw [hround, hdiv]
  · rw [herrabs]
    calc |(m : ℚ) - y| * (10 : ℚ) ^ (e - 3) ≤ 1 / 2 * (10 : ℚ) ^ (e - 3) :=
          mul_le_mul_of_nonneg_right hmy (le_of_lt hq)
      _ = (10 : ℚ) ^ (e - 3) / 2 := by ring
  · intro htie
    rw [herrabs] at htie
    have h1 : |(m : ℚ) - y| = 1 / 2 := by
      have h2 : |(m : ℚ) - y| * (10 : ℚ) ^ (e - 3) = 1 / 2 * (10 : ℚ) ^ (e - 3) := by
        rw [htie]; ring
      exact mul_right_cancel₀ (ne_of_gt hq) h2
    exact rhe_tie_even y h1

/-- The registry invariant: aliases are globally unique across the entire
registry. -/
theorem registry_aliases_nodup : registryAliases.Nodup := by decide

/-- Rendering the string of a cast natural number. -/
theorem toString_intCast_nat (w : ℕ) : toString ((w : ℤ)) = toString w := rfl

/-- A concrete floor evaluation step. -/
theorem floor_eval (x : ℚ) (n : ℤ) (h1 : (n : ℚ) ≤ x) (h2 : x < (n : ℚ) + 1) :
    ⌊x⌋ = n :=
  Int.floor_eq_iff.mpr ⟨h1, by exact_mod_cast h2⟩

/-- `renderNumber` at an exact integer. -/
theorem renderNumber_int (w : ℤ) : renderNumber ((w : ℚ)) = toString w := by
  unfold renderNumber
  rw [Int.floor_intCast]
  rw [if_pos (by norm_num)]

/-- `renderNumber` on an integer plus a genuine fractional part found by the
fraction matcher. -/
theorem renderNumber_add_frac (w : ℕ) (c : ℚ) (a b : ℕ)
    (h0 : 1 / 1000000 ≤ c) (h1 : c < 1)
    (hfs : fracSearch c [2, 3, 4, 8] = some (a, b)) :
    renderNumber ((w : ℚ) + c) =
      (if w = 0 then "" else toString w ++ " ") ++ toString a ++ "/" ++ toString b := by
  have hfl : ⌊(w : ℚ) + c⌋ = (w : ℤ) := by
    apply floor_eval
    · push_cast
      linarith
    · push_cast
      linarith
  have hsub : (w : ℚ) + c - ((w : ℤ) : ℚ) = c := by
    push_cast
    ring
  unfold renderNumber
  rw [hfl, hsub, if_neg (by linarith), hfs]
  simp only [Nat.cast_eq_zero, toString_intCast_nat]

/-- `render` never chooses the singular display form for an
integer-plus-proper-fraction value. -/
theorem add_frac_ne_one (w : ℕ) (c : ℚ) (h0 : 0 < c) (h1 : c < 1) :
    (w : ℚ) + c ≠ 1 := by
  intro h
  rcases Nat.eq_zero_or_pos w with hw | hw
  · subst hw
    push_cast at h
    linarith
  · have : (1 : ℚ) ≤ (w : ℚ) := by exact_mod_cast hw
    linarith

/-- Evaluation of `rhe` at an exact tie over an odd integer. -/
theorem rhe_eq_tie_odd (n : ℤ) (h : ¬ 2 ∣ n) : rhe ((n : ℚ) + 1 / 2) = n + 1 := by
  have hf : ⌊(n : ℚ) + 1 / 2⌋ = n := by
    apply Int.floor_eq_iff.mpr
    constructor
    · linarith
    · linarith
  unfold rhe
  rw [hf]
  rw [if_neg (by norm_num), if_neg (by norm_num), if_neg h]

/-- The fraction matcher at one half. -/
theorem fracSearch_half : fracSearch (1 / 2) [2, 3, 4, 8] = some (1, 2) := by
  have e2 : rhe ((1 : ℚ) / 2 * ((2 : ℕ) : ℚ)) = 1 :=
    rhe_eq_low _ 1 (by norm_num) (by norm_num)
  simp only [fracSearch, e2]
  norm_num [abs_of_pos, Int.toNat_ofNat]

/-- The fraction matcher at one third. -/
theorem fracSearch_third : fracSearch (1 / 3) [2, 3, 4, 8] = some (1, 3) := by
  have e2 : rhe ((1 : ℚ) / 3 * ((2 : ℕ) : ℚ)) = 1 :=
    rhe_eq_high _ 1 (by norm_num) (by norm_num)
  have e3 : rhe ((1 : ℚ) / 3 * ((3 : ℕ) : ℚ)) = 1 :=
    rhe_eq_low _ 1 (by norm_num) (by norm_num)
  simp only [fracSearch, e2, e3]
  norm_num [abs_of_pos, Int.toNat_ofNat]

/-- The fraction matcher at two thirds. -/
theorem fracSearch_two_thirds : fracSearch (2 / 3) [2, 3, 4, 8] = some (2, 3) := by
  have e2 : rhe ((2 : ℚ) / 3 * ((2 : ℕ) : ℚ)) = 1 :=
    rhe_eq_low _ 1 (by norm_num) (by norm_num)
  have e3 : rhe ((2 : ℚ) / 3 * ((3 : ℕ) : ℚ)) = 2 :=
    rhe_eq_low _ 2 (by norm_num) (by norm_num)
  simp only [fracSearch, e2, e3]
  norm_num [abs_of_pos, Int.toNat_ofNat]
  all_goals decide

/-- The fraction matcher at one quarter. -/
theorem fracSearch_quarter : fracSearch (1 / 4) [2, 3, 4, 8] = some (1, 4) := by
  have e2 : rhe ((1 : ℚ) / 4 * ((2 : ℕ) : ℚ)) = 0 := by
    have h := rhe_eq_tie_even 0 ⟨0, by ring⟩
    norm_num at h
    convert h using 2
    norm_num
  have e3 : rhe ((1 : ℚ) / 4 * ((3 : ℕ) : ℚ)) = 1 :=
    rhe_eq_high _ 1 (by norm_num) (by norm_num)
  have e4 : rhe ((1 : ℚ) / 4 * ((4 : ℕ) : ℚ)) = 1 :=
    rhe_eq_low _ 1 (by norm_num) (by norm_num)
  simp only [fracSearch, e2, e3, e4]
  norm_num [abs_of_pos, Int.toNat_ofNat]

/-- The fraction matcher at three quarters. -/
theorem fracSearch_three_quarters : fracSearch (3 / 4) [2, 3, 4, 8] = some (3, 4) := by
  have e2 : rhe ((3 : ℚ) / 4 * ((2 : ℕ) : ℚ)) = 2 := by
    have h := rhe_eq_tie_odd 1 (by omega)
    norm_num at h
    convert h using 2
    norm_num
  have e3 : rhe ((3 : ℚ) / 4 * ((3 : ℕ) : ℚ)) = 2 :=
    rhe_eq_low _ 2 (by norm_num) (by norm_num)
  have e4 : rhe ((3 : ℚ) / 4 * ((4 : ℕ) : ℚ)) = 3 :=
    rhe_eq_low _ 3 (by norm_num) (by norm_num)
  simp only [fracSearch, e2, e3, e4]
  norm_num [abs_of_pos, Int.toNat_ofNat]
  all_goals decide

/-- The fraction matcher at one eighth. -/
theorem fracSearch_eighth : fracSearch (1 / 8) [2, 3, 4, 8] = some (1, 8) := by
  have e2 : rhe ((1 : ℚ) / 8 * ((2 : ℕ) : ℚ)) = 0 :=
    rhe_eq_low _ 0 (by norm_num) (by norm_num)
  have e3 : rhe ((1 : ℚ) / 8 * ((3 : ℕ) : ℚ)) = 0 :=
    rhe_eq_low _ 0 (by norm_num) (by norm_num)
  have e4 : rhe ((1 : ℚ) / 8 * ((4 : ℕ) : ℚ)) = 0 := by
    have h := rhe_eq_tie_even 0 ⟨0, by ring⟩
    norm_num at h
    convert h using 2
    norm_num
  have e8 : rhe ((1 : ℚ) / 8 * ((8 : ℕ) : ℚ)) = 1 :=
    rhe_eq_low _ 1 (by norm_num) (by norm_num)
  simp only [fracSearch, e2, e3, e4, e8]
  norm_num [abs_of_pos, Int.toNat_ofNat]

/-- The fraction matcher at three eighths. -/
theorem fracSearch_three_eighths : fracSearch (3 / 8) [2, 3, 4, 8] = some (3, 8) := by
  have e2 : rhe ((3 : ℚ) / 8 * ((2 : ℕ) : ℚ)) = 1 :=
    rhe_eq_high _ 1 (by norm_num) (by norm_num)
  have e3 : rhe ((3 : ℚ) / 8 * ((3 : ℕ) : ℚ)) = 1 :=
    rhe_eq_low _ 1 (by norm_num) (by norm_num)
  have e4 : rhe ((3 : ℚ) / 8 * ((4 : ℕ) : ℚ)) = 2 := by
    have h := rhe_eq_tie_odd 1 (by omega)
    norm_num at h
    convert h using 2
    norm_num
  have e8 : rhe ((3 : ℚ) / 8 * ((8 : ℕ) : ℚ)) = 3 :=
    rhe_eq_low _ 3 (by norm_num) (by norm_num)
  simp only [fracSearch, e2, e3, e4, e8]
  norm_num [abs_of_pos, Int.toNat_ofNat]
  all_goals decide

/-- The fraction matcher at five eighths. -/
theorem fracSearch_five_eighths : fracSearch (5 / 8) [2, 3, 4, 8] = some (5, 8) := by
  have e2 : rhe ((5 : ℚ) / 8 * ((2 : ℕ) : ℚ)) = 1 :=
    rhe_eq_low _ 1 (by norm_num) (by norm_num)
  have e3 : rhe ((5 : ℚ) / 8 * ((3 : ℕ) : ℚ)) = 2 :=
    rhe_eq_high _ 2 (by norm_num) (by norm_num)
  have e4 : rhe ((5 : ℚ) / 8 * ((4 : ℕ) : ℚ)) = 2 := by
    have h := rhe_eq_tie_even 2 ⟨1, by ring⟩
    norm_num at h
    convert h using 2
    norm_num
  have e8 : rhe ((5 : ℚ) / 8 * ((8 : ℕ) : ℚ)) = 5 :=
    rhe_eq_low _ 5 (by norm_num) (by norm_num)
  simp only [fracSearch, e2, e3, e4, e8]
  norm_num [abs_of_pos, Int.toNat_ofNat]
  all_goals decide

/-- The fraction matcher at seven eighths. -/
theorem fracSearch_seven_eighths : fracSearch (7 / 8) [2, 3, 4, 8] = some (7, 8) := by
  have e2 : rhe ((7 : ℚ) / 8 * ((2 : ℕ) : ℚ)) = 2 :=
    rhe_eq_high _ 2 (by norm_num) (by norm_num)
  have e3 : rhe ((7 : ℚ) / 8 * ((3 : ℕ) : ℚ)) = 3 :=
    rhe_eq_high _ 3 (by norm_num) (by norm_num)
  have e4 : rhe ((7 : ℚ) / 8 * ((4 : ℕ) : ℚ)) = 4 := by
    have h := rhe_eq_tie_odd 3 (by omega)
    norm_num at h
    convert h using 2
    norm_num
  have e8 : rhe ((7 : ℚ) / 8 * ((8 : ℕ) : ℚ)) = 7 :=
    rhe_eq_low _ 7 (by norm_num) (by norm_num)
  simp only [fracSearch, e2, e3, e4, e8]
  norm_num [abs_of_pos, Int.toNat_ofNat]
  all_goals decide

/-- Parsing a present, non-negative numeric value with a resolvable unit
succeeds. -/
theorem parse_num_some (v : ℚ) (tok : String) (u : UnitDefinition)
    (hr : resolve tok = some u) (hv : 0 ≤ v) :
    parse (RawVal.num v) (some tok) = ParseResult.ok ⟨v, u⟩ := by
  simp only [parse, coerceValue]
  rw [if_neg (not_lt.mpr hv), hr]

/-- The façade on a present, non-negative numeric value with a resolvable
unit: readable from the original value and unit, numeric from the
normalizer, token from the resolved unit. -/
theorem build_num_ok (v : ℚ) (tok : String) (u : UnitDefinition)
    (hr : resolve tok = some u) (hv : 0 ≤ v) :
    build (RawVal.num v) (some tok) =
      BuildResult.ok ⟨render v u, roundSig 4 (v * u.factorToBase), u.token⟩ := by
  unfold build
  rw [parse_num_some v tok u hr hv]
  rfl

/-- The registry resolves the teaspoon token. -/
theorem resolve_tsp : resolve "tsp" = some tspDef := rfl

/-- The registry resolves the cup token. -/
theorem resolve_cup : resolve "cup" = some cupDef := rfl

/-- Rendering the value two in teaspoons. -/
theorem render_two_tsp : render 2 tspDef = "2 teaspoons" := by
  have hc : (((2 : ℤ)) : ℚ) = (2 : ℚ) := by norm_num
  have h2 : renderNumber (2 : ℚ) = "2" := by
    have h := renderNumber_int 2
    rw [hc] at h
    rw [h]
    rfl
  unfold render
  rw [h2, if_neg (by norm_num : (2 : ℚ) ≠ 1)]
  rfl

/-- Rendering the value zero in cups. -/
theorem render_zero_cup : render 0 cupDef = "0 cups" := by
  have hc : (((0 : ℤ)) : ℚ) = (0 : ℚ) := by norm_num
  have h0 : renderNumber (0 : ℚ) = "0" := by
    have h := renderNumber_int 0
    rw [hc] at h
    rw [h]
    rfl
  unfold render
  rw [h0, if_neg (by norm_num : (0 : ℚ) ≠ 1)]
  rfl

/-- Rendering one and a half cups uses the vulgar-fraction form. -/
theorem render_three_halves_cup : render 1.5 cupDef = "1 1/2 cups" := by
  have hval : (1.5 : ℚ) = ((1 : ℕ) : ℚ) + 1 / 2 := by norm_num
  have h := renderNumber_add_frac 1 (1 / 2) 1 2 (by norm_num) (by norm_num) fracSearch_half
  unfold render
  rw [hval, h, if_neg (show ¬(((1 : ℕ) : ℚ) + 1 / 2 = 1) by push_cast; norm_num)]
  rfl

/-- Rendering an integer-plus-proper-fraction value appends the plural
display form to the matched vulgar fraction. -/
theorem render_add_frac_found (w : ℕ) (c : ℚ) (a b : ℕ) (u : UnitDefinition)
    (h0 : 1 / 1000000 ≤ c) (h1 : c < 1) (h2 : 0 < c)
    (hfs : fracSearch c [2, 3, 4, 8] = some (a, b)) :
    render ((w : ℚ) + c) u =
      (if w = 0 then "" else toString w ++ " ") ++
        toString a ++ "/" ++ toString b ++ " " ++ u.plural := by
  unfold render
  rw [renderNumber_add_frac w c a b h0 h1 hfs, if_neg (add_frac_ne_one w c h2 h1)]

/-- C1: for every present, valid (rawValue, rawUnit) pair, `build` returns a
`Rendering` whose readable string is formatted from the original value and
unit while its numeric field is the value converted to the category's base
unit (rounded to 4 significant digits); in particular `build(2, "tsp")`
yields readable "2 teaspoons", normalized value `roundSig 4` of
`2 * 4.92892159375` (the tsp-to-mL factor), and unit token "tsp". -/
theorem C1_build_readable_original_numeric_normalized :
    (∀ (v : ℚ) (tok : String) (u : UnitDefinition), resolve tok = some u → 0 ≤ v →
      build (RawVal.num v) (some tok) =
        BuildResult.ok ⟨render v u, roundSig 4 (v * u.factorToBase), u.token⟩)
    ∧ build (RawVal.num 2) (some "tsp") =
        BuildResult.ok ⟨"2 teaspoons", roundSig 4 (2 * 4.92892159375), "tsp"⟩ := by
  constructor
  · exact build_num_ok
  · rw [build_num_ok 2 "tsp" tspDef resolve_tsp (by norm_num), render_two_tsp]
    rfl

/-- C2: every value that is exactly a whole part plus a supported fraction
with denominator 2, 3, 4 or 8 renders in vulgar-fraction form, reduced to
lowest terms, with the whole part omitted when zero, rather than as the
decimal fallback; in particular `build(1.5, "cup")` yields readable
"1 1/2 cups". -/
theorem C2_render_reproduces_supported_fractions :
    (∀ (w nu de : ℕ) (u : UnitDefinition), de ∈ [2, 3, 4, 8] → 0 < nu → nu < de →
      render ((w : ℚ) + (nu : ℚ) / (de : ℚ)) u =
        (if w = 0 then "" else toString w ++ " ") ++
          toString (nu / Nat.gcd nu de) ++ "/" ++ toString (de / Nat.gcd nu de) ++
            " " ++ u.plural)
    ∧ build (RawVal.num 1.5) (some "cup") =
        BuildResult.ok ⟨"1 1/2 cups", roundSig 4 (1.5 * 236.5882365), "cup"⟩ := by
  constructor
  · intro w nu de u hde h0 h1
    fin_cases hde <;> interval_cases nu
    · rw [show ((1 : ℕ) : ℚ) / ((2 : ℕ) : ℚ) = 1 / 2 by push_cast; norm_num,
        render_add_frac_found w (1 / 2) 1 2 u (by norm_num) (by norm_num) (by norm_num)
          fracSearch_half]
      norm_num
    · rw [show ((1 : ℕ) : ℚ) / ((3 : ℕ) : ℚ) = 1 / 3 by push_cast; norm_num,
        render_add_frac_found w (1 / 3) 1 3 u (by norm_num) (by norm_num) (by norm_num)
          fracSearch_third]
      norm_num
    · rw [show ((2 : ℕ) : ℚ) / ((3 : ℕ) : ℚ) = 2 / 3 by push_cast; norm_num,
        render_add_frac_found w (2 / 3) 2 3 u (by norm_num) (by norm_num) (by norm_num)
          fracSearch_two_thirds]
      norm_num
    · rw [show ((1 : ℕ) : ℚ) / ((4 : ℕ) : ℚ) = 1 / 4 by push_cast; norm_num,
        render_add_frac_found w (1 / 4) 1 4 u (by norm_num) (by norm_num) (by norm_num)
          fracSearch_quarter]
      norm_num
    · rw [show ((2 : ℕ) : ℚ) / ((4 : ℕ) : ℚ) = 1 / 2 by push_cast; norm_num,
        render_add_frac_found w (1 / 2) 1 2 u (by norm_num) (by norm_num) (by norm_num)
          fracSearch_half]
      norm_num
    · rw [show ((3 : ℕ) : ℚ) / ((4 : ℕ) : ℚ) = 3 / 4 by push_cast; norm_num,
        render_add_frac_found w (3 / 4) 3 4 u (by norm_num) (by norm_num) (by norm_num)
          fracSearch_three_quarters]
      norm_num
    · rw [show ((1 : ℕ) : ℚ) / ((8 : ℕ) : ℚ) = 1 / 8 by push_cast; norm_num,
        render_add_frac_found w (1 / 8) 1 8 u (by norm_num) (by norm_num) (by norm_num)
          fracSearch_eighth]
      norm_num
    · rw [show ((2 : ℕ) : ℚ) / ((8 : ℕ) : ℚ) = 1 / 4 by push_cast; norm_num,
        render_add_frac_found w (1 / 4) 1 4 u (by norm_num) (by norm_num) (by norm_num)
          fracSearch_quarter]
      norm_num
    · rw [show ((3 : ℕ) : ℚ) / ((8 : ℕ) : ℚ) = 3 / 8 by push_cast; norm_num,
        render_add_frac_found w (3 / 8) 3 8 u (by norm_num) (by norm_num) (by norm_num)
          fracSearch_three_eighths]
      norm_num
    · rw [show ((4 : ℕ) : ℚ) / ((8 : ℕ) : ℚ) = 1 / 2 by push_cast; norm_num,
        render_add_frac_found w (1 / 2) 1 2 u (by norm_num) (by norm_num) (by norm_num)
          fracSearch_half]
      norm_num
    · rw [show ((5 : ℕ) : ℚ) / ((8 : ℕ) : ℚ) = 5 / 8 by push_cast; norm_num,
        render_add_frac_found w (5 / 8) 5 8 u (by norm_num) (by norm_num) (by norm_num)
          fracSearch_five_eighths]
      norm_num
    · rw [show ((6 : ℕ) : ℚ) / ((8 : ℕ) : ℚ) = 3 / 4 by push_cast; norm_num,
        render_add_frac_found w (3 / 4) 3 4 u (by norm_num) (by norm_num) (by norm_num)
          fracSearch_three_quarters]
      norm_num
    · rw [show ((7 : ℕ) : ℚ) / ((8 : ℕ) : ℚ) = 7 / 8 by push_cast; norm_num,
        render_add_frac_found w (7 / 8) 7 8 u (by norm_num) (by norm_num) (by norm_num)
          fracSearch_seven_eighths]
      norm_num
  · rw [build_num_ok 1.5 "cup" cupDef resolve_cup (by norm_num), render_three_halves_cup]
    rfl

/-- C3: for every Quantity, the normalizer equals `value * factorToBase`
rounded to 4 significant decimal digits with round half to even, and it is
total: it maps a zero product to zero and any positive product to an
integer mantissa of at most `10 ^ 4` scaled by a power of ten, within half
an ulp of the exact product, ties resolved to an even mantissa. -/
theorem C3_normalize_rounds_to_four_significant_digits :
    (∀ q : Quantity, normalizeQty q = roundSig 4 (q.value * q.unitDef.factorToBase))
    ∧ (∀ q : Quantity, q.value * q.unitDef.factorToBase = 0 → normalizeQty q = 0)
    ∧ (∀ q : Quantity, 0 < q.value * q.unitDef.factorToBase →
        ∃ m : ℤ, 0 < m ∧ m ≤ 10 ^ 4 ∧
          normalizeQty q =
            (m : ℚ) * (10 : ℚ) ^ (Int.log 10 (q.value * q.unitDef.factorToBase) - 3) ∧
          |normalizeQty q - q.value * q.unitDef.factorToBase| ≤
            (10 : ℚ) ^ (Int.log 10 (q.value * q.unitDef.factorToBase) - 3) / 2 ∧
          (|normalizeQty q - q.value * q.unitDef.factorToBase| =
              (10 : ℚ) ^ (Int.log 10 (q.value * q.unitDef.factorToBase) - 3) / 2 →
            2 ∣ m)) := by
  refine ⟨fun q => rfl, fun q h => ?_, fun q h => ?_⟩
  · unfold normalizeQty roundSig
    rw [if_pos h]
  · exact roundSig4_pos_spec _ h

/-- C4: the engine renders a zero quantity with a valid unit as
"0 <plural-unit>" (zero is distinct from the absent state), but the
`mapQuantifiable` gate in `recipe.js` tests JavaScript truthiness of
`input.quantity`, so a zero value is dropped and the caller receives
`undefined` instead of that rendering. -/
theorem C4_zero_renders_but_controller_drops_it :
    build (RawVal.num 0) (some "cup") = BuildResult.ok ⟨"0 cups", 0, "cup"⟩
    ∧ mapQuantifiable (some ⟨RawVal.num 0, some "cup"⟩) = none := by
  constructor
  · have hz : roundSig 4 ((0 : ℚ) * cupDef.factorToBase) = 0 := by
      rw [show (0 : ℚ) * cupDef.factorToBase = 0 by ring]
      unfold roundSig
      rw [if_pos rfl]
    rw [build_num_ok 0 "cup" cupDef resolve_cup le_rfl, render_zero_cup, hz]
    rfl
  · simp [mapQuantifiable, truthyVal]

/-- C5: when both raw value and raw unit are absent, the parser returns the
distinguished `Absent` state and the façade propagates it unchanged, not as
an error; the `mapQuantifiable` gate likewise produces no record for an
absent input. -/
theorem C5_absent_propagates_unchanged :
    build RawVal.absent none = BuildResult.absent
    ∧ parse RawVal.absent none = ParseResult.absent
    ∧ mapQuantifiable (some ⟨RawVal.absent, none⟩) = none
    ∧ mapQuantifiable none = none :=
  ⟨rfl, rfl, rfl, rfl⟩

/-- C6: every negative input value fails with the NegativeQuantity error,
whether supplied as a number or as a decimal string, for any unit token;
in particular `build(-1, "cup")` is that error. -/
theorem C6_negative_values_rejected :
    (∀ (v : ℚ) (tok : String), v < 0 →
      parse (RawVal.num v) (some tok) = ParseResult.err ParseError.negativeQuantity
      ∧ build (RawVal.num v) (some tok) = BuildResult.err ParseError.negativeQuantity)
    ∧ (∀ (s : String) (v : ℚ) (tok : String), parseDecimal s = some v → v < 0 →
      build (RawVal.str s) (some tok) = BuildResult.err ParseError.negativeQuantity)
    ∧ build (RawVal.num (-1)) (some "cup") = BuildResult.err ParseError.negativeQuantity := by
  have hp : ∀ (v : ℚ) (tok : String), v < 0 →
      parse (RawVal.num v) (some tok) = ParseResult.err ParseError.negativeQuantity := by
    intro v tok hv
    simp only [parse, coerceValue]
    rw [if_pos hv]
  have hps : ∀ (s : String) (v : ℚ) (tok : String), parseDecimal s = some v → v < 0 →
      parse (RawVal.str s) (some tok) = ParseResult.err ParseError.negativeQuantity := by
    intro s v tok hs hv
    simp only [parse, coerceValue, hs]
    rw [if_pos hv]
  refine ⟨fun v tok hv => ⟨hp v tok hv, ?_⟩, fun s v tok hs hv => ?_, ?_⟩
  · unfold build
    rw [hp v tok hv]
  · unfold build
    rw [hps s v tok hs hv]
  · unfold build
    rw [hp (-1) "cup" (by norm_num)]

/-- The alias table of the registry, spelled out. -/
theorem registryAliases_eq :
    registryAliases =
      ["ml", "milliliter", "millilitre", "l", "liter", "litre", "tsp", "teaspoon", "t",
        "tbsp", "tbs", "tablespoon", "cup", "c", "g", "gram", "kg", "kilogram", "oz",
        "ounce", "lb", "pound", "count", "whole", "item"] := rfl

/-- C7: resolution is invariant under canonicalization (case and surrounding
whitespace), a trailing "s" on any registered alias resolves to the same
unit as the alias itself, and a token that misses both the alias table and
the singularized lookup resolves to none, never a fuzzy match. -/
theorem C7_resolve_alias_equivalence :
    (∀ s t : String, canonTok s = canonTok t → resolve s = resolve t)
    ∧ (∀ a : String, a ∈ registryAliases →
        resolve (a ++ "s") = resolve a
        ∧ resolve (upperStr a) = resolve a
        ∧ resolve (" " ++ a ++ " ") = resolve a)
    ∧ (∀ tok : String, lookupAlias (canonTok tok) = none →
        lookupAlias (dropLastChar (canonTok tok)) = none → resolve tok = none)
    ∧ resolve "bogus" = none := by
  refine ⟨?_, ?_, ?_, rfl⟩
  · intro s t h
    unfold resolve
    rw [h]
  · intro a ha
    rw [registryAliases_eq] at ha
    fin_cases ha <;> exact ⟨rfl, rfl, rfl⟩
  · intro tok h1 h2
    unfold resolve resolveCanon
    simp only [h1]
    split_ifs
    · exact h2
    · rfl

/-- C8: `build` is deterministic: identical inputs give identical results,
and in particular two successful renderings of the same input agree on the
readable string, the normalized value and the unit token. -/
theorem C8_build_deterministic :
    ∀ (v : RawVal) (u : Option String),
      build v u = build v u
      ∧ ∀ r1 r2 : Rendering,
          build v u = BuildResult.ok r1 → build v u = BuildResult.ok r2 →
          r1.readable = r2.readable ∧ r1.normalized = r2.normalized ∧ r1.units = r2.units := by
  intro v u
  refine ⟨rfl, fun r1 r2 h1 h2 => ?_⟩
  have h : BuildResult.ok r1 = BuildResult.ok r2 := h1.symm.trans h2
  have hr : r1 = r2 := by injection h
  exact ⟨by rw [hr], by rw [hr], by rw [hr]⟩

/-- `objectIdIsValid` holds exactly on 24-character hex strings. -/
theorem objectIdIsValid_iff (id : String) :
    objectIdIsValid id = true ↔
      (id.data.length = 24 ∧ ∀ c ∈ id.data, isHexDigitChar c = true) := by
  unfold objectIdIsValid
  simp [List.all_eq_true]

/-- C9: every user document sent by `getAllUsers` or `getUserById` has its
password and Mongoose `__v` field blanked before the response is sent, and
the response is independent of the stored password and version values. -/
theorem C9_responses_scrub_password_and_version :
    (∀ (st : ℕ) (users : List UserDoc) (u : UserDoc),
        u ∈ (getAllUsers st users).2 → u.password = none ∧ u.versionKey = none)
    ∧ (∀ (st : ℕ) (doc : UserDoc),
        (getUserById st doc).2.password = none ∧ (getUserById st doc).2.versionKey = none)
    ∧ (∀ (st : ℕ) (users1 users2 : List UserDoc),
        users1.map scrubUser = users2.map scrubUser →
        getAllUsers st users1 = getAllUsers st users2)
    ∧ (∀ (st : ℕ) (d1 d2 : UserDoc), d1.username = d2.username → d1.email = d2.email →
        getUserById st d1 = getUserById st d2) := by
  refine ⟨?_, ?_, ?_, ?_⟩
  · intro st users u hu
    simp only [getAllUsers, List.mem_map] at hu
    obtain ⟨x, _, rfl⟩ := hu
    exact ⟨rfl, rfl⟩
  · intro st doc
    exact ⟨rfl, rfl⟩
  · intro st users1 users2 h
    simp only [getAllUsers, h]
  · intro st d1 d2 h1 h2
    cases d1
    cases d2
    simp only [getUserById, scrubUser]
    simp_all

/-- C10: for an ID that is not exactly 24 hexadecimal characters, `change`
and `discard` respond 404 and leave the recipe store untouched. -/
theorem C10_invalid_id_gives_404_without_write :
    (∀ id : String, ¬ (id.data.length = 24 ∧ ∀ c ∈ id.data, isHexDigitChar c = true) →
      ∀ (json : RecipeDoc) (store : List (String × RecipeDoc)),
        (change id json store).1.status = 404 ∧ (change id json store).2 = store
        ∧ (discardRecipe id store).1.status = 404 ∧ (discardRecipe id store).2 = store)
    ∧ change "xyz" ⟨"t", []⟩ [("abc", ⟨"r", []⟩)] =
        (⟨404, changeNotFoundMsg "xyz"⟩, [("abc", ⟨"r", []⟩)])
    ∧ discardRecipe "xyz" [("abc", ⟨"r", []⟩)] =
        (⟨404, discardNotFoundMsg "xyz"⟩, [("abc", ⟨"r", []⟩)]) := by
  refine ⟨?_, rfl, rfl⟩
  intro id h json store
  have hb : objectIdIsValid id = false := by
    cases hx : objectIdIsValid id
    · rfl
    · exact absurd ((objectIdIsValid_iff id).mp hx) h
  have hch : change id json store = (⟨404, changeNotFoundMsg id⟩, store) := by
    unfold change
    rw [hb]
    rfl
  have hdi : discardRecipe id store = (⟨404, discardNotFoundMsg id⟩, store) := by
    unfold discardRecipe
    rw [hb]
    rfl
  rw [hch, hdi]
  exact ⟨rfl, rfl, rfl, rfl⟩
